import Mathlib

/-!
Shallow embedding of the Unitify core (unit registry, unit model, Measurement
arithmetic, unit converter, PEMDAS expression evaluator) translated from the
C++ sources, together with theorems settling the specification claims.

C++ doubles are modelled as rationals (`ℚ`); machine floating point artifacts
(Inf/NaN) do not arise on the concrete inputs any theorem evaluates, and no
theorem asserts a magnitude produced by a division whose divisor is zero.

The bodies of the `CompoundUnit` member functions declared in
`include/CompoundUnit.h` (constructor validation, name building,
`toBaseUnit`/`getBaseUnit` for compound units) are absent from the repository's
sources (`src/CompoundUnit.cpp` holds an abandoned incompatible legacy class),
so those, and only those, are modelled from the spec; each such definition
carries a doc comment starting with `Modelled from the spec:`.
-/

namespace Unitify

/-- Error taxonomy of the spec (§7); C++ signals these as exceptions. -/
inductive UErr where
  | unknownUnit
  | malformedCompoundUnit
  | emptyCompoundUnit
  | incompatibleUnits
  | divisionByZero
  | fuelExhausted
deriving DecidableEq, Repr

/-- The four concrete `Units` subclasses (Mass, Length, TimeUnit, Volume)
of `Units.h` / `UnitImplementations.cpp`. -/
inductive UKind where
  | mass
  | length
  | timeU
  | volume
deriving DecidableEq, Repr

/-- `getType()` string of each subclass, from `UnitImplementations.cpp`. -/
def UKind.typeName : UKind → String
  | .mass => "Mass"
  | .length => "Length"
  | .timeU => "TimeUnit"
  | .volume => "Volume"

/-- The base-unit symbol each subclass's `getBaseUnit()` constructs
(`UnitImplementations.cpp`: `Mass("g",1.0)`, `Length("m",1.0)`,
`TimeUnit("s",1.0)`, `Volume("l",1.0)`). -/
def UKind.baseName : UKind → String
  | .mass => "g"
  | .length => "m"
  | .timeU => "s"
  | .volume => "l"

/-- A `Units` object: either one of the four simple subclasses (with its
stored `name` and `baseUnitFactor`) or a `CompoundUnit` (component units plus
operator characters), as in `Units.h` / `CompoundUnit.h`. -/
inductive UnitsE where
  | simple (kind : UKind) (name : String) (baseUnitFactor : ℚ)
  | compound (units : List UnitsE) (operators : List Char)

/-- The operator fold of `UnitConverter::convertCompoundUnit`:
start from the first component magnitude and, for the i-th operator, divide by
the (i+1)-th magnitude on `'/'` and multiply on `'*'` (any other operator
character leaves the accumulator unchanged, exactly as the C++ loop does).
The C++ loop reads `ms[0]` and `ms[i+1]` without bounds checks; `headD`/`zip`
give the loop's behaviour on all well-formed (nonempty, balanced) inputs. -/
def opFold (ms : List ℚ) (ops : List Char) : ℚ :=
  (ops.zip ms.tail).foldl
    (fun acc p => if p.1 = '/' then acc / p.2 else if p.1 = '*' then acc * p.2 else acc)
    (ms.headD 1)

mutual

/-- `toBaseUnit(value)`. Simple units: `value * baseUnitFactor`
(`UnitImplementations.cpp`). Compound units: Modelled from the spec:
`CompoundUnit::toBaseUnit`'s body is absent from src; §4.1 folds the
components' `toBase` factors through the unit's own operators
(multiply on `*`, divide on `/`), scaled by `value`. -/
def UnitsE.toBaseUnit : UnitsE → ℚ → ℚ
  | .simple _ _ f, v => v * f
  | .compound us ops, v => v * opFold (toBaseFactors us) ops

/-- The list of `u.toBaseUnit 1.0` over components. -/
def toBaseFactors : List UnitsE → List ℚ
  | [] => []
  | u :: rest => u.toBaseUnit 1 :: toBaseFactors rest

end

mutual

/-- `getBaseUnit()`. Simple units: the subclass's canonical prototype with
factor 1 (`UnitImplementations.cpp`). Compound units: Modelled from the spec:
`CompoundUnit::getBaseUnit`'s body is absent from src; §4.1 builds a new
Compound Unit from each component's own base unit, preserving the operator
sequence. -/
def UnitsE.getBaseUnit : UnitsE → UnitsE
  | .simple k _ _ => .simple k k.baseName 1
  | .compound us ops => .compound (baseUnitList us) ops

/-- Componentwise `getBaseUnit`. -/
def baseUnitList : List UnitsE → List UnitsE
  | [] => []
  | u :: rest => u.getBaseUnit :: baseUnitList rest

end

mutual

/-- `getName()`. Simple units return the stored name (`Units.cpp`).
Compound units: Modelled from the spec: `CompoundUnit::buildCompoundUnitName`
/ `getCompoundName` bodies are absent from src; §4.1/§4.4 join the component
names with the operators between them (display form `"m / s"`, as the
repository's own test `TestCompoundUnits.cpp` asserts). -/
def UnitsE.getName : UnitsE → String
  | .simple _ n _ => n
  | .compound us ops =>
    match us with
    | [] => ""
    | u :: rest => u.getName ++ compoundNameTail ops rest

/-- The `" <op> <name>"` tail of a compound unit's display name. -/
def compoundNameTail : List Char → List UnitsE → String
  | op :: ops, u :: rest => " " ++ op.toString ++ " " ++ u.getName ++ compoundNameTail ops rest
  | _, _ => ""

end

/-- `getType()`: the subclass string for simple units
(`UnitImplementations.cpp`); for compound units, Modelled from the spec:
`CompoundUnit::getType`'s body is absent from src; §3 says a compound unit's
dimension is nominally "Compound". -/
def UnitsE.getType : UnitsE → String
  | .simple k _ _ => k.typeName
  | .compound _ _ => "Compound"

/-- `baseUnitFactor` stored in simple units. -/
def UnitsE.getBaseFactor : UnitsE → ℚ
  | .simple _ _ f => f
  | .compound _ _ => 1

/-- Modelled from the spec: the `CompoundUnit(unitList, operatorList)`
constructor's body is absent from src (declared in `CompoundUnit.h`); per
§4.1 it fails with `EmptyCompoundUnit` on zero components and with
`MalformedCompoundUnit` when `operators.length != units.length - 1` (the
repository's own test `testCompoundUnitErrors` expects a `std::logic_error`
for one component with one operator). -/
def mkCompoundUnit (units : List UnitsE) (operators : List Char) :
    Except UErr UnitsE :=
  if units.length = 0 then .error .emptyCompoundUnit
  else if operators.length ≠ units.length - 1 then .error .malformedCompoundUnit
  else .ok (.compound units operators)

/-- `Units::isCompoundUnitName`: the name contains `*` or `/`
(`find_first_of("*/") != npos`). -/
def isCompoundUnitName (unitName : String) : Bool :=
  unitName.data.any (fun c => c = '*' || c = '/')

/-- Splits a character list at every space character, keeping empty fields
(the behaviour of `std::getline(ss, token, ' ')` between delimiters). -/
def splitOnSpaceAux : List Char → List Char → List String
  | [], acc => [String.mk acc.reverse]
  | c :: rest, acc =>
    if c = ' ' then String.mk acc.reverse :: splitOnSpaceAux rest []
    else splitOnSpaceAux rest (c :: acc)

/-- The tokens `std::getline(ss, token, ' ')` yields on `s`: the
space-separated fields, except that a trailing delimiter produces no final
empty token (`getline` sets failbit when it extracts nothing at EOF). -/
def cppGetlineTokens (s : String) : List String :=
  let parts := splitOnSpaceAux s.data []
  if parts.getLast? = some "" then parts.dropLast else parts

/-- The simple-unit name table of `Units::getUnitByName` (`Units.cpp`
lines 51–118): the if/else chain mapping each recognized name or abbreviation
to a subclass instance carrying the dimension's base symbol and the
conversion factor; unrecognized names throw (`UnknownUnit`). -/
def simpleUnitLookup (n : String) : Except UErr UnitsE :=
  if n = "micrograms" ∨ n = "ug" then .ok (.simple .mass "g" (1/1000000))
  else if n = "milligrams" ∨ n = "mg" then .ok (.simple .mass "g" (1/1000))
  else if n = "centigrams" ∨ n = "cg" then .ok (.simple .mass "g" (1/100))
  else if n = "decigrams" ∨ n = "dg" then .ok (.simple .mass "g" (1/10))
  else if n = "grams" ∨ n = "g" then .ok (.simple .mass "g" 1)
  else if n = "kilograms" ∨ n = "kg" then .ok (.simple .mass "g" 1000)
  else if n = "micrometers" ∨ n = "um" then .ok (.simple .length "m" (1/1000000))
  else if n = "millimeters" ∨ n = "mm" then .ok (.simple .length "m" (1/1000))
  else if n = "centimeters" ∨ n = "cm" then .ok (.simple .length "m" (1/100))
  else if n = "decimeters" ∨ n = "dm" then .ok (.simple .length "m" (1/10))
  else if n = "meters" ∨ n = "m" then .ok (.simple .length "m" 1)
  else if n = "kilometers" ∨ n = "km" then .ok (.simple .length "m" 1000)
  else if n = "milliseconds" ∨ n = "ms" then .ok (.simple .timeU "s" (1/1000))
  else if n = "seconds" ∨ n = "s" then .ok (.simple .timeU "s" 1)
  else if n = "minutes" ∨ n = "min" then .ok (.simple .timeU "s" 60)
  else if n = "hours" ∨ n = "hr" then .ok (.simple .timeU "s" 3600)
  else if n = "microliters" ∨ n = "ul" then .ok (.simple .volume "l" (1/1000000))
  else if n = "milliliters" ∨ n = "ml" then .ok (.simple .volume "l" (1/1000))
  else if n = "centiliters" ∨ n = "cl" then .ok (.simple .volume "l" (1/100))
  else if n = "deciliters" ∨ n = "dl" then .ok (.simple .volume "l" (1/10))
  else if n = "liters" ∨ n = "l" then .ok (.simple .volume "l" 1)
  else if n = "kiloliters" ∨ n = "kl" then .ok (.simple .volume "l" 1000)
  else .error .unknownUnit

/-- One pass of `Units::parseCompoundUnit`'s token loop, resolving unit
tokens with `resolve` and collecting operators, in order. -/
def parseCompoundTokens (resolve : String → Except UErr UnitsE) :
    List String → List UnitsE → List Char → Except UErr (List UnitsE × List Char)
  | [], unitList, operators => .ok (unitList, operators)
  | t :: rest, unitList, operators =>
    if t = "*" ∨ t = "/" then
      parseCompoundTokens resolve rest unitList (operators ++ [t.toList.headD '*'])
    else
      match resolve t with
      | .error e => .error e
      | .ok u => parseCompoundTokens resolve rest (unitList ++ [u]) operators

/-- `Units::parseCompoundUnit` body given a resolver for unit tokens:
tokenize on spaces, collect units and operators, construct the
`CompoundUnit`. -/
def parseCompoundWith (resolve : String → Except UErr UnitsE)
    (unitName : String) : Except UErr UnitsE :=
  match parseCompoundTokens resolve (cppGetlineTokens unitName) [] [] with
  | .error e => .error e
  | .ok (unitList, operators) => mkCompoundUnit unitList operators

/-- `Units::getUnitByName`: compound names are delegated to
`parseCompoundUnit`, other names go through the table. The C++ recursion
(`parseCompoundUnit` resolves tokens via `getUnitByName`) does not terminate
on tokens that themselves contain `*`/`/` without spaces, so the embedding
carries fuel; `fuelExhausted` models that divergence and is never reached in
any theorem below. -/
def getUnitByName : Nat → String → Except UErr UnitsE
  | 0, _ => .error .fuelExhausted
  | fuel + 1, unitName =>
    if isCompoundUnitName unitName then
      parseCompoundWith (fun t => getUnitByName fuel t) unitName
    else simpleUnitLookup unitName

/-- `Units::parseCompoundUnit` with the given fuel for nested resolution. -/
def parseCompoundUnit (fuel : Nat) (unitName : String) : Except UErr UnitsE :=
  parseCompoundWith (fun t => getUnitByName fuel t) unitName

/-- A `Measurement`: a magnitude paired with a unit (`Measurement.h`). -/
structure Measurement where
  magnitude : ℚ
  unit : UnitsE

/-- `UnitConverter::convertCompoundUnit`: convert each component's unit
magnitude 1 to base, fold those factors through the operator list, scale the
measurement's magnitude, and pair it with the compound of the components'
base units under the same operators. -/
def convertCompoundUnit (m : Measurement) (us : List UnitsE)
    (ops : List Char) : Measurement :=
  ⟨m.magnitude * opFold (toBaseFactors us) ops, .compound (baseUnitList us) ops⟩

/-- `UnitConverter::convertToBaseUnit`: compound units go through
`convertCompoundUnit`; simple units are scaled by `toBaseUnit` and paired
with `getBaseUnit`. -/
def convertToBaseUnit (m : Measurement) : Measurement :=
  match m.unit with
  | .compound us ops => convertCompoundUnit m us ops
  | u => ⟨u.toBaseUnit m.magnitude, u.getBaseUnit⟩

/-- `Measurement::ensureSameType`: reject when the `getType` strings differ,
base-convert both operands, reject when the base unit names differ, and
return the base-converted pair (C++ throws `std::invalid_argument` in both
reject branches — the spec's `IncompatibleUnits`). -/
def ensureSameType (l r : Measurement) :
    Except UErr (Measurement × Measurement) :=
  if l.unit.getType ≠ r.unit.getType then .error .incompatibleUnits
  else
    let leftBase := convertToBaseUnit l
    let rightBase := convertToBaseUnit r
    if leftBase.unit.getName ≠ rightBase.unit.getName then
      .error .incompatibleUnits
    else .ok (leftBase, rightBase)

/-- `Measurement::createCompoundUnit`: take the left unit's components and
operators (flattening a compound left unit), append the right unit whole and
the new operator, check the operator balance (C++ throws `std::logic_error`
on mismatch), and construct the `CompoundUnit`. -/
def createCompoundUnit (left right : Measurement) (operation : Char) :
    Except UErr UnitsE :=
  let s : List UnitsE × List Char :=
    match left.unit with
    | .compound lus lops => (lus, lops)
    | u => ([u], [])
  let units := s.1 ++ [right.unit]
  let operators := s.2 ++ [operation]
  if operators.length ≠ units.length - 1 then .error .malformedCompoundUnit
  else mkCompoundUnit units operators

namespace Measurement

/-- `Measurement::operator+`: base-magnitude sum carrying the left base
unit. -/
def add (l m : Measurement) : Except UErr Measurement :=
  match ensureSameType l m with
  | .error e => .error e
  | .ok (leftBase, rightBase) =>
    .ok ⟨leftBase.magnitude + rightBase.magnitude, leftBase.unit⟩

/-- `Measurement::operator-`: base-magnitude difference, but carrying
`getUnit()` — the left operand's ORIGINAL unit, not the base unit. -/
def sub (l m : Measurement) : Except UErr Measurement :=
  match ensureSameType l m with
  | .error e => .error e
  | .ok (leftBase, rightBase) =>
    .ok ⟨leftBase.magnitude - rightBase.magnitude, l.unit⟩

/-- `Measurement::operator*`: same `getType` collapses to the base unit with
the base-magnitude product; otherwise a compound unit is synthesized and the
raw magnitudes are multiplied. -/
def mul (l m : Measurement) : Except UErr Measurement :=
  if l.unit.getType = m.unit.getType then
    match ensureSameType l m with
    | .error e => .error e
    | .ok (leftBase, rightBase) =>
      .ok ⟨leftBase.magnitude * rightBase.magnitude, leftBase.unit⟩
  else
    match createCompoundUnit l m '*' with
    | .error e => .error e
    | .ok compoundUnit => .ok ⟨l.magnitude * m.magnitude, compoundUnit⟩

/-- `Measurement::operator/`: a zero right magnitude throws
(`DivisionByZero`) before any unit work; then same `getType` collapses to
the base unit with the base-magnitude quotient, else a compound unit is
synthesized over the raw quotient. -/
def div (l m : Measurement) : Except UErr Measurement :=
  if m.magnitude = 0 then .error .divisionByZero
  else if l.unit.getType = m.unit.getType then
    match ensureSameType l m with
    | .error e => .error e
    | .ok (leftBase, rightBase) =>
      .ok ⟨leftBase.magnitude / rightBase.magnitude, leftBase.unit⟩
  else
    match createCompoundUnit l m '/' with
    | .error e => .error e
    | .ok compoundUnit => .ok ⟨l.magnitude / m.magnitude, compoundUnit⟩

/-- `Measurement::operator==`: runs `ensureSameType` purely as a guard and
then compares the RAW stored magnitudes. -/
def meq (l m : Measurement) : Except UErr Bool :=
  match ensureSameType l m with
  | .error e => .error e
  | .ok _ => .ok (decide (l.magnitude = m.magnitude))

/-- `Measurement::operator!=`: the negation of `operator==` (its exception
propagates). -/
def mne (l m : Measurement) : Except UErr Bool :=
  match meq l m with
  | .error e => .error e
  | .ok b => .ok (!b)

/-- `Measurement::operator<`: guard via `ensureSameType`, then compare the
RAW stored magnitudes. -/
def mlt (l m : Measurement) : Except UErr Bool :=
  match ensureSameType l m with
  | .error e => .error e
  | .ok _ => .ok (decide (l.magnitude < m.magnitude))

/-- `Measurement::operator>`: guard via `ensureSameType`, then compare the
RAW stored magnitudes. -/
def mgt (l m : Measurement) : Except UErr Bool :=
  match ensureSameType l m with
  | .error e => .error e
  | .ok _ => .ok (decide (l.magnitude > m.magnitude))

end Measurement

/-! ## The expression evaluator (`MeasurementFileProcessor.cpp`) -/

/-- `MeasurementFileProcessor::getPrecedence`, using the class-scope
`precedence` enum of `MeasurementFileProcessor.h` (`ADD_SUB = 1`,
`MUL_DIV = 2`, `INVALID = 0`), which shadows the dead file-scope enum in the
`.cpp`. -/
def getPrecedence (op : Char) : Nat :=
  if op = '+' ∨ op = '-' then 1
  else if op = '*' ∨ op = '/' then 2
  else 0

/-- Outcome of an evaluator call: `crash` models an exception escaping the
`catch (const std::invalid_argument&)` handler (the `std::logic_error` of the
operator-balance check), `fail` models `std::nullopt`, `result` a returned
`Measurement`. -/
inductive EvalOut where
  | crash
  | fail
  | result (m : Measurement)

/-- Whether an `EvalOut` carries a returned Measurement. -/
def EvalOut.isResult : EvalOut → Bool
  | .result _ => true
  | _ => false

/-- `MeasurementFileProcessor::applyOperation`. If the two unit NAMES are
equal: base-convert both and return the product of the base magnitudes when
`op == '*'`, and their QUOTIENT for every other operator (the C++ conditional
`(op == '*') ? ... * ... : ... / ...` has no case for `+` or `-`), under the
left base unit. Otherwise: flatten both sides' components (left's operators
are kept, right's are dropped), append `op`, check the operator balance
(mismatch throws `std::logic_error`, which the `invalid_argument` handler
does not catch → `crash`), and return the raw product (for `'*'`) or raw
quotient (for anything else) under the new compound unit. -/
def applyOperation (left right : Measurement) (op : Char) : EvalOut :=
  if left.unit.getName = right.unit.getName then
    let leftBase := convertToBaseUnit left
    let rightBase := convertToBaseUnit right
    .result ⟨if op = '*' then leftBase.magnitude * rightBase.magnitude
             else leftBase.magnitude / rightBase.magnitude, leftBase.unit⟩
  else
    let s : List UnitsE × List Char :=
      match left.unit with
      | .compound lus lops => (lus, lops)
      | u => ([u], [])
    let units := s.1 ++ (match right.unit with
      | .compound rus _ => rus
      | u => [u])
    let operators := s.2 ++ [op]
    if operators.length ≠ units.length - 1 then .crash
    else
      .result ⟨if op = '*' then left.magnitude * right.magnitude
               else left.magnitude / right.magnitude, .compound units operators⟩

/-- The `while` loop of `processOperatorsWithPEMDAS` step 2: as long as the
operator stack is nonempty and its top has precedence `>=` the incoming
operator's, pop it and reduce the two top operands
(`applyTopOperator`: fewer than two operands → `false` → `fail`). -/
def reduceWhile (currentOperator : Char) :
    List Measurement → List Char → EvalOut ⊕ (List Measurement × List Char)
  | operandStack, [] => .inr (operandStack, [])
  | operandStack, top :: restOps =>
    if getPrecedence top ≥ getPrecedence currentOperator then
      match operandStack with
      | right :: left :: rest =>
        match applyOperation left right top with
        | .crash => .inl .crash
        | .fail => .inl .fail
        | .result m => reduceWhile currentOperator (m :: rest) restOps
      | _ => .inl .fail
    else .inr (operandStack, top :: restOps)

/-- The drain loop of `processOperatorsWithPEMDAS` step 3: pop every
remaining operator, reducing the two top operands each time. -/
def drainOps : List Measurement → List Char → EvalOut ⊕ List Measurement
  | operandStack, [] => .inr operandStack
  | operandStack, top :: restOps =>
    match operandStack with
    | right :: left :: rest =>
      match applyOperation left right top with
      | .crash => .inl .crash
      | .fail => .inl .fail
      | .result m => drainOps (m :: rest) restOps
    | _ => .inl .fail

/-- The main loop of `processOperatorsWithPEMDAS`: push each measurement in
turn; while operators remain, run the precedence reduction and push the
incoming operator; finally drain the operator stack and return the top
operand (`nullopt`/`fail` when the operand stack ends empty). -/
def pemdasLoop : List Measurement → List Char → List Measurement → List Char → EvalOut
  | [], _, operandStack, operatorStack =>
    (match drainOps operandStack operatorStack with
     | .inl out => out
     | .inr [] => .fail
     | .inr (top :: _) => .result top)
  | m :: ms, ops, operandStack, operatorStack =>
    let operandStack := m :: operandStack
    match ops with
    | [] => pemdasLoop ms [] operandStack operatorStack
    | op :: restOps =>
      match reduceWhile op operandStack operatorStack with
      | .inl out => out
      | .inr (operandStack', operatorStack') =>
        pemdasLoop ms restOps operandStack' (op :: operatorStack')

/-- `MeasurementFileProcessor::processOperatorsWithPEMDAS` on a measurement
sequence and operator sequence, starting from empty stacks. -/
def processOperatorsWithPEMDAS (measurements : List Measurement)
    (operators : List Char) : EvalOut :=
  pemdasLoop measurements operators [] []

/-! ## Auxiliary definitions used by the claim statements -/

/-- The unit object `Units::getUnitByName` returns for `"g"`/`"grams"`. -/
def gU : UnitsE := .simple .mass "g" 1

/-- The unit object `Units::getUnitByName` returns for `"km"`/`"kilometers"`:
note the stored name is the base symbol `"m"`. -/
def kmU : UnitsE := .simple .length "m" 1000

/-- The unit object `Units::getUnitByName` returns for `"m"`/`"meters"`. -/
def mU : UnitsE := .simple .length "m" 1

/-- The unit object `Units::getUnitByName` returns for `"hr"`/`"hours"`. -/
def hrU : UnitsE := .simple .timeU "s" 3600

/-- The unit object `Units::getUnitByName` returns for `"s"`/`"seconds"`. -/
def sU : UnitsE := .simple .timeU "s" 1

/-- The unit object `Volume("L", 1.0)` that the repository's own test
`testCompoundUnitOperations` constructs directly for the `g / L` example
(the registry itself only ever stores the lowercase base symbol `"l"`). -/
def lU : UnitsE := .simple .volume "L" 1

/-- The compound-unit structural invariant of §3:
`operators.length == units.length - 1` (trivially true of simple units). -/
def unitInvariant : UnitsE → Prop
  | .compound us ops => ops.length + 1 = us.length
  | .simple _ _ _ => True

/-- The component/operator view `Measurement::createCompoundUnit` takes of
the left operand: a compound unit contributes its components and operators,
a simple unit contributes itself with no operators. -/
def leftComponents : UnitsE → List UnitsE × List Char
  | .compound us ops => (us, ops)
  | u => ([u], [])

/-- The canonical table of unit names and abbreviations, transcribed from
the spec's registry contract (§2/§4.2) read against the if/else chain of
`Units::getUnitByName`: the volume abbreviations the code actually accepts
are lowercase (`"l"`, `"ml"`, ..., not `"L"`/`"mL"`). -/
def specCanonicalNames : List String :=
  ["micrograms", "ug", "milligrams", "mg", "centigrams", "cg",
   "decigrams", "dg", "grams", "g", "kilograms", "kg",
   "micrometers", "um", "millimeters", "mm", "centimeters", "cm",
   "decimeters", "dm", "meters", "m", "kilometers", "km",
   "milliseconds", "ms", "seconds", "s", "minutes", "min", "hours", "hr",
   "microliters", "ul", "milliliters", "ml", "centiliters", "cl",
   "deciliters", "dl", "liters", "l", "kiloliters", "kl"]

/-- Whether an `Except` value carries a success. -/
def exceptIsOk : Except UErr UnitsE → Bool
  | .ok _ => true
  | .error _ => false

/-! ## Theorems settling the claims -/

/-- C7: for every dividend and every divisor whose magnitude is exactly 0,
`Measurement::operator/` fails with `DivisionByZero` before any unit
compatibility check or conversion is performed — the statement places no
constraint whatsoever on the two units. -/
theorem C7_div_zero_first (a b : Measurement) (h : b.magnitude = 0) :
    Measurement.div a b = .error .divisionByZero := by
  simp [Measurement.div, h]

/-- C7 witness: `5 g / 0 g` fails with `DivisionByZero`, and so does the
cross-dimension division `5 g / 0 L`. -/
theorem C7_div_zero_witness :
    (Measurement.mk 0 gU).magnitude = 0 ∧
    Measurement.div ⟨5, gU⟩ ⟨0, gU⟩ = .error .divisionByZero ∧
    Measurement.div ⟨5, gU⟩ ⟨0, lU⟩ = .error .divisionByZero :=
  ⟨rfl, C7_div_zero_first ⟨5, gU⟩ ⟨0, gU⟩ rfl, C7_div_zero_first ⟨5, gU⟩ ⟨0, lU⟩ rfl⟩

/-- C1: the precedence table is as claimed (`+`,`-` = 1; `*`,`/` = 2) and on
the claim's example `[10 g, 5 g, 2 g]` with `['*','+']` the pending `*` is
reduced first (10·5 = 50 in base grams) — but the subsequent `+` reduction
yields 50 / 2 = 25 g, not the claimed 52 g, because
`MeasurementFileProcessor::applyOperation` computes a quotient for every
operator other than `'*'`. -/
theorem C1_pemdas_divides_on_plus :
    (getPrecedence '+' = 1 ∧ getPrecedence '-' = 1 ∧
     getPrecedence '*' = 2 ∧ getPrecedence '/' = 2) ∧
    processOperatorsWithPEMDAS [⟨10, gU⟩, ⟨5, gU⟩, ⟨2, gU⟩] ['*', '+'] =
      .result ⟨25, gU⟩ := by
  constructor
  · exact ⟨by decide, by decide, by decide, by decide⟩
  · simp [processOperatorsWithPEMDAS, pemdasLoop, reduceWhile, drainOps, applyOperation,
      getPrecedence, convertToBaseUnit, UnitsE.toBaseUnit, UnitsE.getBaseUnit, UnitsE.getName,
      UKind.baseName, gU]
    norm_num

/-- C2 counterexample: the code compares the RAW stored magnitudes after the
compatibility guard, so `Measurement(1,"km") == Measurement(1000,"m")` is
`false` (the claim says it holds) and `Measurement(1,"km") <
Measurement(999,"m")` is `true` (the claim says it does not hold). -/
theorem C2_raw_comparison_counterexample :
    Measurement.meq ⟨1, kmU⟩ ⟨1000, mU⟩ = .ok false ∧
    Measurement.mlt ⟨1, kmU⟩ ⟨999, mU⟩ = .ok true := by
  constructor <;>
    norm_num [Measurement.meq, Measurement.mlt, ensureSameType, convertToBaseUnit,
      UnitsE.toBaseUnit, UnitsE.getBaseUnit, UnitsE.getName, UnitsE.getType,
      UKind.typeName, UKind.baseName, kmU, mU]

/-- C2 (amended): whenever the same-dimension check `ensureSameType`
succeeds, the comparison operators `==`, `!=`, `<`, `>` compare the two RAW
stored magnitudes (the base-converted pair computed by the guard is
discarded). -/
theorem C2_comparisons_use_raw_magnitudes (a b : Measurement)
    (p : Measurement × Measurement) (h : ensureSameType a b = .ok p) :
    Measurement.meq a b = .ok (decide (a.magnitude = b.magnitude)) ∧
    Measurement.mne a b = .ok (!(decide (a.magnitude = b.magnitude))) ∧
    Measurement.mlt a b = .ok (decide (a.magnitude < b.magnitude)) ∧
    Measurement.mgt a b = .ok (decide (a.magnitude > b.magnitude)) := by
  simp [Measurement.meq, Measurement.mne, Measurement.mlt, Measurement.mgt, h]

/-- C2 witness: the amended statement applied to 1 km and 1000 m, whose
compatibility check succeeds. -/
theorem C2_comparisons_witness :
    Measurement.meq ⟨1, kmU⟩ ⟨1000, mU⟩ = .ok (decide ((1 : ℚ) = 1000)) ∧
    Measurement.mne ⟨1, kmU⟩ ⟨1000, mU⟩ = .ok (!(decide ((1 : ℚ) = 1000))) ∧
    Measurement.mlt ⟨1, kmU⟩ ⟨1000, mU⟩ = .ok (decide ((1 : ℚ) < 1000)) ∧
    Measurement.mgt ⟨1, kmU⟩ ⟨1000, mU⟩ = .ok (decide ((1 : ℚ) > 1000)) :=
  C2_comparisons_use_raw_magnitudes ⟨1, kmU⟩ ⟨1000, mU⟩ (⟨1000, mU⟩, ⟨1000, mU⟩)
    (by norm_num [ensureSameType, convertToBaseUnit, UnitsE.toBaseUnit,
      UnitsE.getBaseUnit, UnitsE.getName, UnitsE.getType, UKind.typeName,
      UKind.baseName, kmU, mU])

/-- C6 counterexample: evaluating `[5 g, 0 g]` with `['/']` does NOT abort —
the evaluator's `applyOperation` divides the base magnitudes without any
zero check (in C++ the result magnitude is IEEE infinity), so a Measurement
result is returned where the claim requires a failure. -/
theorem C6_zero_divisor_counterexample :
    (processOperatorsWithPEMDAS [⟨5, gU⟩, ⟨0, gU⟩] ['/']).isResult = true := by
  simp [processOperatorsWithPEMDAS, pemdasLoop, reduceWhile, drainOps, applyOperation,
    getPrecedence, convertToBaseUnit, UnitsE.toBaseUnit, UnitsE.getBaseUnit, UnitsE.getName,
    UKind.baseName, gU, EvalOut.isResult]

/-- C6 (amended): a reduction that finds fewer than two operands does abort
the evaluation with a failure result (here: one operand against one
operator), but Measurement arithmetic is never invoked during reductions,
so neither a zero right divisor (see the counterexample) nor incompatible
units abort: a mixed-dimension `+` reduction synthesizes a compound unit
and returns a result. -/
theorem C6_underflow_fails_arithmetic_unchecked :
    (∀ m : Measurement, ∀ op : Char,
      processOperatorsWithPEMDAS [m] [op] = .fail) ∧
    (processOperatorsWithPEMDAS [⟨1, gU⟩, ⟨1, mU⟩] ['+']).isResult = true := by
  constructor
  · intro m op
    simp [processOperatorsWithPEMDAS, pemdasLoop, reduceWhile, drainOps]
  · simp [processOperatorsWithPEMDAS, pemdasLoop, reduceWhile, drainOps, applyOperation,
      getPrecedence, UnitsE.getName, gU, mU, EvalOut.isResult]

/-- C3 counterexample: `Measurement(1,"km").subtract(Measurement(500,"m"))`
returns the left operand's ORIGINAL unit (base factor 1000), not the base
unit with conversion factor 1 the claim requires: `operator-` passes
`getUnit()` instead of `leftBase.getUnit()`. -/
theorem C3_sub_keeps_left_unit_counterexample :
    Measurement.sub ⟨1, kmU⟩ ⟨500, mU⟩ = .ok ⟨500, kmU⟩ ∧
    kmU.getBaseFactor ≠ 1 := by
  constructor
  · norm_num [Measurement.sub, ensureSameType, convertToBaseUnit, UnitsE.toBaseUnit,
      UnitsE.getBaseUnit, UnitsE.getName, UnitsE.getType, UKind.typeName,
      UKind.baseName, kmU, mU]
  · norm_num [UnitsE.getBaseFactor, kmU]

/-- C3 (amended): whenever the same-dimension check succeeds, the pair it
returns consists of the two base-converted operands; `add` returns the
base-magnitude sum under the left operand's BASE unit, while `sub` returns
the base-magnitude difference under the left operand's ORIGINAL unit. -/
theorem C3_add_base_sub_original (a b : Measurement)
    (p : Measurement × Measurement) (h : ensureSameType a b = .ok p) :
    p = (convertToBaseUnit a, convertToBaseUnit b) ∧
    Measurement.add a b =
      .ok ⟨(convertToBaseUnit a).magnitude + (convertToBaseUnit b).magnitude,
           (convertToBaseUnit a).unit⟩ ∧
    Measurement.sub a b =
      .ok ⟨(convertToBaseUnit a).magnitude - (convertToBaseUnit b).magnitude,
           a.unit⟩ := by
  have hp : p = (convertToBaseUnit a, convertToBaseUnit b) := by
    simp only [ensureSameType] at h
    split_ifs at h
    simpa using h.symm
  subst hp
  exact ⟨rfl, by simp [Measurement.add, h], by simp [Measurement.sub, h]⟩

/-- C3 witness: the amended statement applied to 1 km and 500 m:
`add` yields 1500 in base meters (factor 1), `sub` yields 500 carrying the
original kilometer unit object (named "m" but with factor 1000). -/
theorem C3_add_sub_witness :
    ensureSameType ⟨1, kmU⟩ ⟨500, mU⟩ = .ok (⟨1000, mU⟩, ⟨500, mU⟩) ∧
    Measurement.add ⟨1, kmU⟩ ⟨500, mU⟩ = .ok ⟨1500, mU⟩ ∧
    Measurement.sub ⟨1, kmU⟩ ⟨500, mU⟩ = .ok ⟨500, kmU⟩ := by
  have hs : ensureSameType ⟨1, kmU⟩ ⟨500, mU⟩ = .ok (⟨1000, mU⟩, ⟨500, mU⟩) := by
    norm_num [ensureSameType, convertToBaseUnit, UnitsE.toBaseUnit, UnitsE.getBaseUnit,
      UnitsE.getName, UnitsE.getType, UKind.typeName, UKind.baseName, kmU, mU]
  have h := C3_add_base_sub_original ⟨1, kmU⟩ ⟨500, mU⟩ (⟨1000, mU⟩, ⟨500, mU⟩) hs
  refine ⟨hs, ?_, ?_⟩
  · have h2 := h.2.1
    norm_num [convertToBaseUnit, UnitsE.toBaseUnit, UnitsE.getBaseUnit,
      UKind.baseName, kmU, mU] at h2
    exact h2
  · have h3 := h.2.2
    norm_num [convertToBaseUnit, UnitsE.toBaseUnit, UnitsE.getBaseUnit,
      UKind.baseName, kmU, mU] at h3
    exact h3

/-- C4: when the two dimensions differ (and, for division, the right
magnitude is nonzero), `multiply`/`divide` return the raw (non-base
converted) product/quotient of the input magnitudes under a freshly
synthesized compound unit whose components are the left operand's
components (flattened if the left unit is compound) followed by the right
operand's unit, with the new operator appended. -/
theorem C4_mul_div_synthesize_compound (a b : Measurement)
    (hinv : unitInvariant a.unit)
    (hdim : a.unit.getType ≠ b.unit.getType)
    (hz : b.magnitude ≠ 0) :
    Measurement.mul a b = .ok ⟨a.magnitude * b.magnitude,
      .compound ((leftComponents a.unit).1 ++ [b.unit])
                ((leftComponents a.unit).2 ++ ['*'])⟩ ∧
    Measurement.div a b = .ok ⟨a.magnitude / b.magnitude,
      .compound ((leftComponents a.unit).1 ++ [b.unit])
                ((leftComponents a.unit).2 ++ ['/'])⟩ := by
  have hcc : ∀ op, createCompoundUnit a b op =
      .ok (.compound ((leftComponents a.unit).1 ++ [b.unit])
                     ((leftComponents a.unit).2 ++ [op])) := by
    intro op
    cases ha : a.unit with
    | simple k n f =>
      simp [createCompoundUnit, mkCompoundUnit, leftComponents, ha]
    | compound us ops =>
      rw [ha] at hinv
      simp only [unitInvariant] at hinv
      simp only [createCompoundUnit, mkCompoundUnit, leftComponents, ha]
      split_ifs with hx hy
      · exfalso; simp at hx; omega
      · exfalso; simp at hy
      · rfl
  exact ⟨by simp [Measurement.mul, hdim, hcc], by simp [Measurement.div, hdim, hz, hcc]⟩

/-- C4 witness: `Measurement(100,"g").divide(Measurement(2,"L"))` (the unit
objects the repository's test constructs) yields magnitude 50 under the
compound unit `[g, L]` with operator `/`, whose display name is `"g / L"`. -/
theorem C4_mul_div_witness :
    Measurement.div ⟨100, gU⟩ ⟨2, lU⟩ = .ok ⟨50, .compound [gU, lU] ['/']⟩ ∧
    (UnitsE.compound [gU, lU] ['/']).getName = "g / L" := by
  constructor
  · have h := (C4_mul_div_synthesize_compound ⟨100, gU⟩ ⟨2, lU⟩ trivial
      (by decide) (by norm_num)).2
    norm_num [leftComponents, gU, lU] at h ⊢
    exact h
  · simp [UnitsE.getName, compoundNameTail, gU, lU]
    decide

/-- C8: converting a Measurement with a compound unit to base form scales
the magnitude by the left-to-right operator fold of the components' to-base
factors (exactly the unit model's `toBaseUnit`), and returns a compound
unit built from each component's base unit with the operator sequence
preserved. -/
theorem C8_compound_conversion (m : Measurement) (us : List UnitsE)
    (ops : List Char) (h : m.unit = .compound us ops) :
    convertToBaseUnit m =
      ⟨m.magnitude * opFold (toBaseFactors us) ops, .compound (baseUnitList us) ops⟩ ∧
    m.unit.toBaseUnit m.magnitude = m.magnitude * opFold (toBaseFactors us) ops := by
  cases m with
  | mk mag u =>
    subst h
    exact ⟨rfl, rfl⟩

/-- C8 witness: magnitude 72 under `km / hr` converts to 20 under the base
compound `m / s`. -/
theorem C8_compound_conversion_witness :
    convertToBaseUnit ⟨72, .compound [kmU, hrU] ['/']⟩ =
      ⟨20, .compound [mU, sU] ['/']⟩ := by
  have h := (C8_compound_conversion ⟨72, .compound [kmU, hrU] ['/']⟩
    [kmU, hrU] ['/'] rfl).1
  norm_num [opFold, toBaseFactors, baseUnitList, UnitsE.toBaseUnit,
    UnitsE.getBaseUnit, UKind.baseName, kmU, hrU, mU, sU] at h ⊢
  exact h

/-- For a non-compound name, `getUnitByName` with any nonzero fuel is
exactly the simple-name table lookup. -/
theorem getUnitByName_not_compound (fuel : Nat) (n : String)
    (h : isCompoundUnitName n = false) :
    getUnitByName (fuel + 1) n = simpleUnitLookup n := by
  simp [getUnitByName, h]

/-- Bool check used to transport table facts by `decide`: a lookup result
is acceptable when it failed or returned a simple unit named with its
subclass's base symbol. -/
def isBaseNamedSimple : Except UErr UnitsE → Bool
  | .ok (.simple k nm _) => decide (nm = k.baseName)
  | .ok (.compound _ _) => false
  | .error _ => true

/-- Every name of the canonical table resolves, to a simple unit named with
its base symbol. -/
theorem simpleUnitLookup_mem_ok :
    specCanonicalNames.all
      (fun n => exceptIsOk (simpleUnitLookup n) &&
        isBaseNamedSimple (simpleUnitLookup n)) = true := by decide

/-- Every name outside the canonical table fails the lookup with
`UnknownUnit`. -/
theorem simpleUnitLookup_not_mem_error (n : String)
    (hn : n ∉ specCanonicalNames) :
    simpleUnitLookup n = .error .unknownUnit := by
  unfold simpleUnitLookup
  rw [if_neg (by rintro (rfl | rfl) <;> exact hn (by decide)),
    if_neg (by rintro (rfl | rfl) <;> exact hn (by decide)),
    if_neg (by rintro (rfl | rfl) <;> exact hn (by decide)),
    if_neg (by rintro (rfl | rfl) <;> exact hn (by decide)),
    if_neg (by rintro (rfl | rfl) <;> exact hn (by decide)),
    if_neg (by rintro (rfl | rfl) <;> exact hn (by decide)),
    if_neg (by rintro (rfl | rfl) <;> exact hn (by decide)),
    if_neg (by rintro (rfl | rfl) <;> exact hn (by decide)),
    if_neg (by rintro (rfl | rfl) <;> exact hn (by decide)),
    if_neg (by rintro (rfl | rfl) <;> exact hn (by decide)),
    if_neg (by rintro (rfl | rfl) <;> exact hn (by decide)),
    if_neg (by rintro (rfl | rfl) <;> exact hn (by decide)),
    if_neg (by rintro (rfl | rfl) <;> exact hn (by decide)),
    if_neg (by rintro (rfl | rfl) <;> exact hn (by decide)),
    if_neg (by rintro (rfl | rfl) <;> exact hn (by decide)),
    if_neg (by rintro (rfl | rfl) <;> exact hn (by decide)),
    if_neg (by rintro (rfl | rfl) <;> exact hn (by decide)),
    if_neg (by rintro (rfl | rfl) <;> exact hn (by decide)),
    if_neg (by rintro (rfl | rfl) <;> exact hn (by decide)),
    if_neg (by rintro (rfl | rfl) <;> exact hn (by decide)),
    if_neg (by rintro (rfl | rfl) <;> exact hn (by decide)),
    if_neg (by rintro (rfl | rfl) <;> exact hn (by decide))]

/-- The table lookup succeeds exactly on the names of the canonical table. -/
theorem simpleUnitLookup_ok_iff (n : String) :
    exceptIsOk (simpleUnitLookup n) = true ↔ n ∈ specCanonicalNames := by
  constructor
  · intro h
    by_contra hn
    rw [simpleUnitLookup_not_mem_error n hn] at h
    exact absurd h (by decide)
  · intro h
    have hall := List.all_eq_true.mp simpleUnitLookup_mem_ok n h
    simp only [Bool.and_eq_true] at hall
    exact hall.1

/-- The table lookup fails (with `UnknownUnit`, the only error it
constructs) exactly outside the canonical table. -/
theorem simpleUnitLookup_error_iff (n : String) :
    simpleUnitLookup n = .error .unknownUnit ↔ n ∉ specCanonicalNames := by
  constructor
  · intro h hmem
    have hall := List.all_eq_true.mp simpleUnitLookup_mem_ok n hmem
    simp only [Bool.and_eq_true] at hall
    rw [h] at hall
    exact absurd hall.1 (by decide)
  · exact simpleUnitLookup_not_mem_error n

/-- Every successful table lookup returns a simple unit whose stored name is
its subclass's base symbol. -/
theorem simpleUnitLookup_ok_shape (n : String) (u : UnitsE)
    (h : simpleUnitLookup n = .ok u) :
    ∃ k f, u = UnitsE.simple k k.baseName f := by
  by_cases hmem : n ∈ specCanonicalNames
  · have hall := List.all_eq_true.mp simpleUnitLookup_mem_ok n hmem
    simp only [Bool.and_eq_true] at hall
    have hshape := hall.2
    rw [h] at hshape
    cases u with
    | simple k nm f =>
      simp only [isBaseNamedSimple, decide_eq_true_eq] at hshape
      exact ⟨k, f, by rw [hshape]⟩
    | compound us ops => exact absurd hshape (by simp [isBaseNamedSimple])
  · rw [simpleUnitLookup_not_mem_error n hmem] at h
    exact absurd h (by simp)

/-- C5 counterexample: resolution of the listed abbreviations `"L"` and
`"mL"` fails with `UnknownUnit` — `Units::getUnitByName` only accepts the
lowercase `"l"`/`"ml"` spellings — while the claim says they resolve. -/
theorem C5_capital_L_counterexample :
    getUnitByName 1 "L" = .error .unknownUnit ∧
    getUnitByName 1 "mL" = .error .unknownUnit := by
  constructor <;> simp [getUnitByName, isCompoundUnitName, simpleUnitLookup]

/-- C5 (amended): for every non-compound name (no `*` or `/`), resolution
succeeds by exact case-sensitive match exactly for the names of the
canonical table — whose volume entries are the lowercase `"l"`, `"ml"`,
`"cl"`, `"dl"`, `"kl"`, `"ul"`, not `"L"`/`"mL"` — and fails with
`UnknownUnit` for every name outside the table. -/
theorem C5_resolution_iff_table (fuel : Nat) (n : String)
    (h : isCompoundUnitName n = false) :
    (exceptIsOk (getUnitByName (fuel + 1) n) = true ↔ n ∈ specCanonicalNames) ∧
    (getUnitByName (fuel + 1) n = .error .unknownUnit ↔ n ∉ specCanonicalNames) := by
  rw [getUnitByName_not_compound fuel n h]
  exact ⟨simpleUnitLookup_ok_iff n, simpleUnitLookup_error_iff n⟩

/-- C5 witness: the amended statement applied to the abbreviation `"kg"`,
which is in the table. -/
theorem C5_resolution_witness :
    isCompoundUnitName "kg" = false ∧
    (exceptIsOk (getUnitByName 1 "kg") = true ↔ "kg" ∈ specCanonicalNames) ∧
    (getUnitByName 1 "kg" = .error .unknownUnit ↔ "kg" ∉ specCanonicalNames) :=
  ⟨by decide, C5_resolution_iff_table 0 "kg" (by decide)⟩

/-- `baseUnitList` preserves the component count. -/
theorem baseUnitList_length (us : List UnitsE) :
    (baseUnitList us).length = us.length := by
  induction us with
  | nil => rfl
  | cons u rest ih => simp [baseUnitList, ih]

/-- A successful `CompoundUnit` construction returns exactly the given
components and operators, with the balance invariant established. -/
theorem mkCompoundUnit_ok_eq (us : List UnitsE) (ops : List Char) (u : UnitsE)
    (h : mkCompoundUnit us ops = .ok u) :
    u = .compound us ops ∧ ops.length + 1 = us.length := by
  unfold mkCompoundUnit at h
  split_ifs at h with h1 h2
  injection h with h
  exact ⟨h.symm, by omega⟩

/-- A successful `CompoundUnit` construction satisfies the structural
invariant. -/
theorem mkCompoundUnit_ok_invariant (us : List UnitsE) (ops : List Char)
    (u : UnitsE) (h : mkCompoundUnit us ops = .ok u) : unitInvariant u := by
  obtain ⟨hu, hlen⟩ := mkCompoundUnit_ok_eq us ops u h
  subst hu
  exact hlen

/-- Base conversion preserves the structural invariant (componentwise base
units keep the component count). -/
theorem convertToBaseUnit_invariant (m : Measurement)
    (h : unitInvariant m.unit) : unitInvariant (convertToBaseUnit m).unit := by
  cases m with
  | mk mag u =>
    cases u with
    | simple k n f => trivial
    | compound us ops =>
      simp only [unitInvariant] at h
      simp only [convertToBaseUnit, convertCompoundUnit, unitInvariant]
      rw [baseUnitList_length]
      exact h

/-- A successful `ensureSameType` returns exactly the two base-converted
operands. -/
theorem ensureSameType_ok_pair (a b : Measurement)
    (p : Measurement × Measurement) (h : ensureSameType a b = .ok p) :
    p = (convertToBaseUnit a, convertToBaseUnit b) := by
  simp only [ensureSameType] at h
  split_ifs at h
  simpa using h.symm

/-- A successful `Measurement::createCompoundUnit` satisfies the structural
invariant. -/
theorem createCompoundUnit_ok_invariant (a b : Measurement) (op : Char)
    (u : UnitsE) (h : createCompoundUnit a b op = .ok u) : unitInvariant u := by
  simp only [createCompoundUnit] at h
  split_ifs at h
  exact mkCompoundUnit_ok_invariant _ _ u h

/-- C9: every compound unit obtainable through the public interface
satisfies `operators.length == units.length - 1`: (i) a successful
construction returns the given lists with the balance established, (ii)
`multiply`/`divide` results carry invariant-satisfying units whenever their
operands do, (iii) every unit the registry resolves (simple or parsed
compound) satisfies the invariant, and (iv) constructing with 1 component
and 1 operator fails with `MalformedCompoundUnit`. -/
theorem C9_compound_invariant :
    (∀ us ops u, mkCompoundUnit us ops = .ok u →
      u = .compound us ops ∧ ops.length + 1 = us.length) ∧
    (∀ a b m, unitInvariant a.unit →
      (Measurement.mul a b = .ok m ∨ Measurement.div a b = .ok m) →
      unitInvariant m.unit) ∧
    (∀ fuel n u, getUnitByName fuel n = .ok u → unitInvariant u) ∧
    mkCompoundUnit [gU] ['/'] = .error .malformedCompoundUnit := by
  refine ⟨mkCompoundUnit_ok_eq, ?_, ?_, by simp [mkCompoundUnit]⟩
  · intro a b m hinv hok
    have hsame : ∀ q, ensureSameType a b = .ok q → unitInvariant q.1.unit := by
      intro q hq
      rw [ensureSameType_ok_pair a b q hq]
      exact convertToBaseUnit_invariant a hinv
    have hmatch : ∀ (q : Measurement × Measurement),
        ensureSameType a b = .ok q →
        ∀ mag, m = ⟨mag, q.1.unit⟩ → unitInvariant m.unit := by
      intro q hq mag hm
      rw [hm]
      exact hsame q hq
    rcases hok with hok | hok
    · by_cases ht : a.unit.getType = b.unit.getType
      · simp only [Measurement.mul, if_pos ht] at hok
        cases he : ensureSameType a b with
        | error e => rw [he] at hok; exact absurd hok (by simp)
        | ok q =>
          rw [he] at hok
          cases q with
          | mk lb rb =>
            simp only at hok
            injection hok with hok
            exact hmatch (lb, rb) he _ hok.symm
      · simp only [Measurement.mul, if_neg ht] at hok
        cases hc : createCompoundUnit a b '*' with
        | error e => rw [hc] at hok; exact absurd hok (by simp)
        | ok cu =>
          rw [hc] at hok
          simp only at hok
          injection hok with hok
          have hcu := createCompoundUnit_ok_invariant a b '*' cu hc
          rw [← hok]
          exact hcu
    · by_cases hz : b.magnitude = 0
      · simp [Measurement.div, hz] at hok
      · by_cases ht : a.unit.getType = b.unit.getType
        · simp only [Measurement.div, if_neg hz, if_pos ht] at hok
          cases he : ensureSameType a b with
          | error e => rw [he] at hok; exact absurd hok (by simp)
          | ok q =>
            rw [he] at hok
            cases q with
            | mk lb rb =>
              simp only at hok
              injection hok with hok
              exact hmatch (lb, rb) he _ hok.symm
        · simp only [Measurement.div, if_neg hz, if_neg ht] at hok
          cases hc : createCompoundUnit a b '/' with
          | error e => rw [hc] at hok; exact absurd hok (by simp)
          | ok cu =>
            rw [hc] at hok
            simp only at hok
            injection hok with hok
            have hcu := createCompoundUnit_ok_invariant a b '/' cu hc
            rw [← hok]
            exact hcu
  · intro fuel n u h
    cases fuel with
    | zero => exact absurd h (by simp [getUnitByName])
    | succ f =>
      by_cases hc : isCompoundUnitName n = true
      · simp only [getUnitByName, if_pos hc] at h
        unfold parseCompoundWith at h
        cases hp : parseCompoundTokens (fun t => getUnitByName f t)
            (cppGetlineTokens n) [] [] with
        | error e => rw [hp] at h; exact absurd h (by simp)
        | ok pr =>
          rw [hp] at h
          cases pr with
          | mk ul ops =>
            simp only at h
            exact mkCompoundUnit_ok_invariant ul ops u h
      · have hc' : isCompoundUnitName n = false := by simpa using hc
        rw [getUnitByName_not_compound f n hc'] at h
        obtain ⟨k, fac, hu⟩ := simpleUnitLookup_ok_shape n u h
        subst hu
        trivial

/-- C9 witness: the parsed compound `"km / hr"` resolves and satisfies the
invariant. -/
theorem C9_compound_invariant_witness :
    getUnitByName 2 "km / hr" = .ok (.compound [kmU, hrU] ['/']) ∧
    unitInvariant (.compound [kmU, hrU] ['/']) := by
  have hg : getUnitByName 2 "km / hr" = .ok (.compound [kmU, hrU] ['/']) := by
    have ht : cppGetlineTokens "km / hr" = ["km", "/", "hr"] := by decide
    simp [getUnitByName, isCompoundUnitName, parseCompoundWith, ht,
      parseCompoundTokens, simpleUnitLookup, mkCompoundUnit, kmU, hrU]
  exact ⟨hg, C9_compound_invariant.2.2.1 2 "km / hr" _ hg⟩

/-- C10: every simple name the registry resolves yields a unit whose stored
name is its dimension's base symbol (one of "g","m","s","l"), so two
resolved simple units are name-equal exactly when they have the same
dimension type; in particular resolving "kg" yields a unit named "g" with
factor 1000. -/
theorem C10_registry_stores_base_symbol :
    (∀ fuel n u, isCompoundUnitName n = false →
      getUnitByName (fuel + 1) n = .ok u →
      ∃ k f, u = UnitsE.simple k k.baseName f ∧
        u.getName ∈ ["g", "m", "s", "l"]) ∧
    (∀ fuel1 fuel2 n1 n2 u1 u2,
      isCompoundUnitName n1 = false → isCompoundUnitName n2 = false →
      getUnitByName (fuel1 + 1) n1 = .ok u1 →
      getUnitByName (fuel2 + 1) n2 = .ok u2 →
      (u1.getName = u2.getName ↔ u1.getType = u2.getType)) ∧
    getUnitByName 1 "kg" = .ok (.simple .mass "g" 1000) := by
  have hshape : ∀ fuel n u, isCompoundUnitName n = false →
      getUnitByName (fuel + 1) n = .ok u →
      ∃ k f, u = UnitsE.simple k k.baseName f := by
    intro fuel n u hc h
    rw [getUnitByName_not_compound fuel n hc] at h
    exact simpleUnitLookup_ok_shape n u h
  refine ⟨?_, ?_, by simp [getUnitByName, isCompoundUnitName, simpleUnitLookup]⟩
  · intro fuel n u hc h
    obtain ⟨k, f, hu⟩ := hshape fuel n u hc h
    refine ⟨k, f, hu, ?_⟩
    rw [hu]
    simp only [UnitsE.getName]
    cases k <;> decide
  · intro fuel1 fuel2 n1 n2 u1 u2 h1 h2 hg1 hg2
    obtain ⟨k1, f1, hu1⟩ := hshape fuel1 n1 u1 h1 hg1
    obtain ⟨k2, f2, hu2⟩ := hshape fuel2 n2 u2 h2 hg2
    subst hu1
    subst hu2
    simp only [UnitsE.getName, UnitsE.getType]
    cases k1 <;> cases k2 <;> simp [UKind.baseName, UKind.typeName]

/-- C10 witness: resolving "kg" and "m" gives units whose names ("g" vs
"m") differ exactly as their dimension types ("Mass" vs "Length") differ. -/
theorem C10_registry_witness :
    (UnitsE.simple .mass "g" 1000).getName = (UnitsE.simple .length "m" 1).getName ↔
      (UnitsE.simple .mass "g" 1000).getType = (UnitsE.simple .length "m" 1).getType :=
  C10_registry_stores_base_symbol.2.1 0 0 "kg" "m"
    (.simple .mass "g" 1000) (.simple .length "m" 1) (by decide) (by decide)
    (by simp [getUnitByName, isCompoundUnitName, simpleUnitLookup])
    (by simp [getUnitByName, isCompoundUnitName, simpleUnitLookup])

end Unitify
